import Mathlib

set_option maxRecDepth 100000

/-!
Verification of the BIAN-UML diagram combination and rendering pipeline
(the browser client `puml-ui/app.js`).

Strings are modelled as `List Char`.  The JavaScript calls
`content.replace(/@startuml[^\n]*\n?/g, '')` (and the analogous regexes for
`@enduml`, `title` and `!define LAYOUT`) perform a single left-to-right scan
over the original string, removing every leftmost non-overlapping match, where
a match is the literal keyword followed by the rest of its line and an
optional trailing newline.  `stripAll` below implements exactly this scan;
it is written with an explicit fuel argument (initialised to the length of
the string, which bounds the number of scan steps) so that it is structurally
recursive and kernel-evaluable.
-/

namespace BianUML

/-- One entry of `initializeDiagramConfigs` in `app.js`. -/
structure DiagramConfig where
  id : String
  filename : String
  displayName : String
  description : String
  color : String
  deriving DecidableEq, Repr

/-- The fixed diagram catalogue returned by `initializeDiagramConfigs` in `app.js`. -/
def initializeDiagramConfigs : List DiagramConfig :=
  [ ⟨"business_support", "bian_business_support.puml", "Business Support",
      "IT Management, Enterprise Services, Facilities", "bg-blue-500"⟩,
    ⟨"channels", "bian_channels.puml", "Channels",
      "Digital Channels, Branch Operations, ATM, Contact Center", "bg-green-500"⟩,
    ⟨"cross_product_ops", "bian_cross_product_ops.puml", "Cross Product Ops",
      "Cross-product operational services", "bg-purple-500"⟩,
    ⟨"customer_servicing", "bian_customer_servicing.puml", "Customer Servicing",
      "Customer service and support operations", "bg-orange-500"⟩,
    ⟨"investment_market_ops", "bian_investment_market_ops.puml", "Investment & Market Ops",
      "Investment and market operations", "bg-red-500"⟩,
    ⟨"marketing_sales", "bian_marketing_sales.puml", "Marketing & Sales",
      "Marketing and sales operations", "bg-yellow-500"⟩,
    ⟨"product_loans_cards", "bian_product_loans_cards.puml", "Products, Loans & Cards",
      "Product management, loans, and card services", "bg-indigo-500"⟩,
    ⟨"reference_market_data", "bian_reference_market_data.puml", "Reference & Market Data",
      "Reference data and market information", "bg-pink-500"⟩,
    ⟨"risk_compliance", "bian_risk_compliance.puml", "Risk & Compliance",
      "Risk management and compliance operations", "bg-gray-600"⟩ ]

/-- `this.diagramConfigs` of the `BianUMLVisualizer` instance. -/
def diagramConfigs : List DiagramConfig := initializeDiagramConfigs

/-- The whitespace characters removed by JavaScript `String.prototype.trim`
(restricted to the code points that can occur in this code base's inputs). -/
def jsWhitespace : List Char := [' ', '\t', '\n', '\r', '\x0b', '\x0c', '\u00A0', '\uFEFF']

def isJsWhitespace (c : Char) : Bool := jsWhitespace.contains c

/-- JavaScript `String.prototype.trim`. -/
def trimChars (s : List Char) : List Char :=
  ((s.dropWhile isJsWhitespace).reverse.dropWhile isJsWhitespace).reverse

/-- Consume the remainder of the current line together with the line break,
i.e. the `[^\n]*\n?` part of the stripping regexes. -/
def dropToEol : List Char → List Char
  | [] => []
  | c :: rest => if c = '\n' then rest else dropToEol rest

/-- Fuelled single left-to-right scan removing every leftmost non-overlapping
match of `kw[^\n]*\n?`, as JavaScript `replace(/kw[^\n]*\n?/g, '')` does.
The fuel only serves to make the recursion structural; `stripAll` always
supplies enough fuel. -/
def stripAllF (kw : List Char) : Nat → List Char → List Char
  | _, [] => []
  | 0, s => s
  | fuel + 1, c :: rest =>
    if kw.isPrefixOf (c :: rest) then
      stripAllF kw fuel (dropToEol (List.drop (kw.length - 1) rest))
    else
      c :: stripAllF kw fuel rest

/-- `s.replace(/kw[^\n]*\n?/g, '')` for a literal keyword `kw`. -/
def stripAll (kw : List Char) (s : List Char) : List Char := stripAllF kw s.length s

/-- The cleaning applied to each contributing document inside
`createCombinedUML`: strip `@startuml`, `@enduml`, `title` and
`!define LAYOUT` lines (in this order, matching the chained `.replace`
calls), then `trim()`.  Named after the `cleanContent` variable in the
source. -/
def cleanContent (content : List Char) : List Char :=
  trimChars
    (stripAll "!define LAYOUT".data
      (stripAll "title".data
        (stripAll "@enduml".data
          (stripAll "@startuml".data content))))

/-- The fixed preamble of the combined document:
`'@startuml Combined BIAN Diagrams\n\n'` + title line + layout define. -/
def combinedHeader : List Char :=
  "@startuml Combined BIAN Diagrams\n\ntitle Combined BIAN Architecture Domains\n\n!define LAYOUT top to bottom direction\n\n".data

/-- The per-document comment header `' === ${config.displayName} Domain ==='`
(without its trailing newline). -/
def domainHeaderLine (label : String) : List Char :=
  ("' === " ++ label ++ " Domain ===").data

/-- The contribution of one selected config to the combined document:
nothing if the content is absent (`undefined`), empty (falsy), or cleans to
the empty string; otherwise the comment header line followed by the cleaned
content and a blank-line separator. -/
def diagramBlock (umlContents : String → Option String) (config : DiagramConfig) : List Char :=
  match umlContents config.id with
  | none => []
  | some content =>
    if content = "" then []
    else if cleanContent content.data = [] then []
    else domainHeaderLine config.displayName ++ '\n' :: (cleanContent content.data ++ ['\n', '\n'])

/-- `createCombinedUML` from `app.js`: filter the fixed catalogue by
membership in the selected-id set, then fold the contributions onto the
fixed preamble and append the closing `@enduml`. -/
def createCombinedUML (configs : List DiagramConfig) (selectedDiagrams : List String)
    (umlContents : String → Option String) : List Char :=
  (List.foldl (fun acc config => acc ++ diagramBlock umlContents config) combinedHeader
      (configs.filter (fun config => selectedDiagrams.contains config.id)))
    ++ "@enduml".data

/-- The document-building part of `visualizeSelectedDiagrams` in `app.js`:
empty selection returns early (no render), a singleton selection passes the
stored body through unchanged, a larger selection uses `createCombinedUML`.
`selectedDiagrams` lists the ids in the order they were added to the
`Set`. -/
def visualizeSelectedDiagrams (configs : List DiagramConfig) (selectedDiagrams : List String)
    (umlContents : String → Option String) : Option (List Char) :=
  match selectedDiagrams with
  | [] => none
  | [diagramId] => (umlContents diagramId).map String.data
  | _ => some (createCombinedUML configs selectedDiagrams umlContents)

/-- Outcome of one `fetch` of a catalogue entry in `loadAllUMLContents`:
a success with the response text, a non-ok HTTP response, or a thrown
network error. -/
inductive FetchResult where
  | ok (content : String)
  | httpError (status : Nat)
  | networkError (message : String)
  deriving DecidableEq, Repr

/-- The value stored under `config.id` by `loadAllUMLContents` for each fetch
outcome: the real content on success, otherwise the placeholder documents
built in the `else` / `catch` branches of the source. -/
def loadedContent (config : DiagramConfig) : FetchResult → String
  | .ok content => content
  | .httpError _ =>
      "@startuml\ntitle Error Loading " ++ config.displayName
        ++ "\nnote \"Could not load UML file: " ++ config.filename ++ "\" as N1\n@enduml"
  | .networkError msg =>
      "@startuml\ntitle Error Loading " ++ config.displayName
        ++ "\nnote \"Error: " ++ msg ++ "\" as N1\n@enduml"

/-- `loadAllUMLContents` from `app.js`: each catalogue entry is fetched
independently and its result (content or placeholder) stored under its id;
the final `umlContents` map, as an association list in catalogue order. -/
def loadAllUMLContents (configs : List DiagramConfig) (fetch : String → FetchResult) :
    List (String × String) :=
  configs.map (fun config => (config.id, loadedContent config (fetch config.filename)))

/-- The server's response to the single `fetch('/api/generate-diagram', ...)`
call in `renderUMLDiagram`: HTTP ok flag, status code, the `error` field of
the JSON error body when the body parsed to JSON and had one, and the binary
payload (opaque). -/
structure RendererResponse where
  ok : Bool
  status : Nat
  errorField : Option String
  payload : String

/-- The outcome of one render operation as observed by the caller. -/
inductive RenderOutcome where
  | success (payload : String)
  | failure (message : String)
  deriving DecidableEq, Repr

/-- The message of the error thrown on a non-ok response:
`errorData.error || 'Server error: ${response.status}'` — note the `||`
falls through to the generic message when the `error` field is absent
(JSON parse failure or no such field) or the empty string (falsy). -/
def renderErrorMessage (resp : RendererResponse) : String :=
  match resp.errorField with
  | some msg => if msg = "" then "Server error: " ++ toString resp.status else msg
  | none => "Server error: " ++ toString resp.status

/-- `renderUMLDiagram` from `app.js`, modelled against a stub server:
`server n` is the response the external renderer would give to the `n`-th
call of this invocation.  The function makes exactly one call (`server 0`;
the second component counts the calls made), succeeds with the payload when
the response is ok, and otherwise produces a failure carrying
`renderErrorMessage` (the thrown error is displayed and re-thrown, never
swallowed, and no fallback image is produced). -/
def renderUMLDiagram (server : Nat → RendererResponse) : RenderOutcome × Nat :=
  (if (server 0).ok then RenderOutcome.success (server 0).payload
   else RenderOutcome.failure (renderErrorMessage (server 0)), 1)

/-- Modelled from the spec: the format validation of the render endpoint is
implemented in the Flask server (`app.py`, launched by `start.sh` but not
part of the repository snapshot).  Per §4.2 and §7 of the spec, `render`
validates the requested format against the supported set {png, svg} and
rejects an unsupported format before any external renderer invocation. -/
def renderWithFormat (format : String) (server : Nat → RendererResponse) :
    RenderOutcome × Nat :=
  if format = "png" ∨ format = "svg" then renderUMLDiagram server
  else (RenderOutcome.failure ("Unsupported format: " ++ format), 0)

/-- Number of (possibly overlapping) occurrences of `pat` as a substring. -/
def countOcc (pat : List Char) : List Char → Nat
  | [] => 0
  | c :: rest => (if pat.isPrefixOf (c :: rest) then 1 else 0) + countOcc pat rest

/-- Index of the first occurrence of `pat` as a substring, if any. -/
def firstIdx (pat : List Char) : List Char → Option Nat
  | [] => none
  | c :: rest =>
    if pat.isPrefixOf (c :: rest) then some 0
    else (firstIdx pat rest).map (· + 1)

/-- `p` occurs in `s`, `q` occurs in `s`, and the first occurrence of `p`
strictly precedes the first occurrence of `q`. -/
def occursBefore (p q s : List Char) : Bool :=
  match firstIdx p s, firstIdx q s with
  | some i, some j => decide (i < j)
  | _, _ => false

/-- The number of occurrences of `pat` inside the cleaned body that the given
config would contribute to the combined document (zero when the config
contributes nothing). -/
def blockCleanCount (pat : List Char) (umlContents : String → Option String)
    (config : DiagramConfig) : Nat :=
  match umlContents config.id with
  | none => 0
  | some content => if content = "" then 0 else countOcc pat (cleanContent content.data)

/-- The combined document's fixed preamble without its final newline. -/
def chInit : List Char :=
  "@startuml Combined BIAN Diagrams\n\ntitle Combined BIAN Architecture Domains\n\n!define LAYOUT top to bottom direction\n".data

/-- A stored document (or an absent one) whose cleaned body retains no
occurrence of either structural marker. -/
def markersClean (stored : Option String) : Bool :=
  match stored with
  | none => true
  | some content =>
      (countOcc "@startuml".data (cleanContent content.data) == 0)
        && (countOcc "@enduml".data (cleanContent content.data) == 0)

/-- A stored document (or an absent one) whose cleaned body retains no
occurrence of `!define LAYOUT`. -/
def layoutClean (stored : Option String) : Bool :=
  match stored with
  | none => true
  | some content => countOcc "!define LAYOUT".data (cleanContent content.data) == 0

/-- A stored document (or an absent one) that contributes nothing to a
combined document: absent, empty, or cleaning to the empty string. -/
def emptyContribution (stored : Option String) : Bool :=
  match stored with
  | none => true
  | some content => cleanContent content.data == []

/-- A content store with a body that splices a surviving `@startuml` marker. -/
def exC1cex : String → Option String := fun id =>
  if id = "business_support" then some "@start@startuml\numl keep\n"
  else if id = "channels" then some "B -> C\n" else none

/-- A content store with two ordinary well-formed diagram bodies. -/
def exC1wit : String → Option String := fun id =>
  if id = "business_support" then some "@startuml\ntitle A\nFoo\n@enduml"
  else if id = "channels" then some "@startuml\ntitle B\nBar\n@enduml" else none

/-- A content store with two ordinary well-formed diagram bodies. -/
def exC2cex : String → Option String := fun id =>
  if id = "business_support" then some "@startuml\ntitle A\nFoo\n@enduml"
  else if id = "channels" then some "@startuml\ntitle B\nBar\n@enduml" else none

/-- A content store for the spec's concrete single-selection scenario. -/
def exC4store : String → Option String := fun id =>
  if id = "business_support" then some "@startuml\ntitle X\nA -> B\n@enduml" else none

/-- A content store where the first document cleans to the empty string. -/
def exC5wit : String → Option String := fun id =>
  if id = "business_support" then some "@startuml\ntitle Only\n@enduml"
  else if id = "channels" then some "Foo\n" else none

/-- A fetch oracle that fails for exactly one catalogue entry. -/
def exC6fetch : String → FetchResult := fun filename =>
  if filename = "bian_channels.puml" then FetchResult.httpError 404
  else FetchResult.ok ("content of " ++ filename)

/-- The catalogue entry with id `channels`. -/
def channelsConfig : DiagramConfig :=
  ⟨"channels", "bian_channels.puml", "Channels",
    "Digital Channels, Branch Operations, ATM, Contact Center", "bg-green-500"⟩

/-- The catalogue entry with id `business_support`. -/
def businessSupportConfig : DiagramConfig :=
  ⟨"business_support", "bian_business_support.puml", "Business Support",
    "IT Management, Enterprise Services, Facilities", "bg-blue-500"⟩

/-- A stub server that always fails with a diagnostic message. -/
def exC7server : Nat → RendererResponse :=
  fun _ => ⟨false, 500, some "PlantUML failed", ""⟩

/-- A stub server that always succeeds. -/
def exC8server : Nat → RendererResponse :=
  fun _ => ⟨true, 200, none, "image-bytes"⟩

/-- A content store with two simple bodies. -/
def exC9wit : String → Option String := fun id =>
  if id = "business_support" then some "A -> B\n"
  else if id = "channels" then some "C -> D\n" else none

/-- A content store with a body that splices a surviving `!define LAYOUT`
line. -/
def exC10cex : String → Option String := fun id =>
  if id = "business_support" then
    some "!defi!define LAYOUT x\nne LAYOUT top to bottom direction\nkeep\n"
  else if id = "channels" then some "B -> C\n" else none

/-- A content store with two ordinary bodies free of layout defines. -/
def exC10wit : String → Option String := fun id =>
  if id = "business_support" then some "@startuml\nFoo\n@enduml"
  else if id = "channels" then some "Bar\n" else none

/-! ### Basic properties of the scanning primitives -/

theorem dropToEol_length_le (s : List Char) : (dropToEol s).length ≤ s.length := by
  induction s with
  | nil => simp [dropToEol]
  | cons c rest ih =>
    simp only [dropToEol]
    split
    · simp
    · exact Nat.le_succ_of_le ih

theorem scan_step_length_le (kw : List Char) (rest : List Char) :
    (dropToEol (List.drop (kw.length - 1) rest)).length ≤ rest.length := by
  refine le_trans (dropToEol_length_le _) ?_
  simp [List.length_drop]

theorem stripAllF_fuel (kw : List Char) :
    ∀ fuel s, s.length ≤ fuel → stripAllF kw fuel s = stripAll kw s := by
  intro fuel
  induction fuel using Nat.strong_induction_on with
  | _ fuel ih =>
    intro s hs
    cases s with
    | nil => cases fuel <;> rfl
    | cons c rest =>
      cases fuel with
      | zero => simp at hs
      | succ fuel =>
        have hrest : rest.length ≤ fuel := by
          simp only [List.length_cons] at hs; omega
        simp only [stripAll, List.length_cons, stripAllF]
        cases h : kw.isPrefixOf (c :: rest) with
        | false =>
          rw [ih fuel (Nat.lt_succ_self _) rest hrest,
            ih rest.length (Nat.lt_succ_of_le hrest) rest le_rfl]
          simp
        | true =>
          rw [ih fuel (Nat.lt_succ_self _) _ (le_trans (scan_step_length_le kw rest) hrest),
            ih rest.length (Nat.lt_succ_of_le hrest) _ (scan_step_length_le kw rest)]
          simp

theorem stripAll_nil (kw : List Char) : stripAll kw [] = [] := rfl

theorem stripAll_cons (kw : List Char) (c : Char) (rest : List Char) :
    stripAll kw (c :: rest) =
      if kw.isPrefixOf (c :: rest) then
        stripAll kw (dropToEol (List.drop (kw.length - 1) rest))
      else c :: stripAll kw rest := by
  have h1 : stripAll kw (c :: rest) = stripAllF kw (rest.length + 1) (c :: rest) := by
    simp [stripAll]
  rw [h1]
  simp only [stripAllF]
  cases h : kw.isPrefixOf (c :: rest) with
  | false => simp only [Bool.false_eq_true, if_false]; rfl
  | true =>
    simp only [if_true]
    exact stripAllF_fuel kw rest.length _ (scan_step_length_le kw rest)

theorem not_isPrefixOf_newline_cons {pat : List Char} (hne : pat ≠ []) (hnl : '\n' ∉ pat)
    (b : List Char) : pat.isPrefixOf ('\n' :: b) = false := by
  cases pat with
  | nil => exact absurd rfl hne
  | cons p pr =>
    cases hp : (p :: pr).isPrefixOf ('\n' :: b) with
    | false => rfl
    | true =>
      exfalso
      have hpre := List.isPrefixOf_iff_prefix.mp hp
      have hp' := List.prefix_iff_eq_take.mp hpre
      rw [List.length_cons, List.take_succ_cons] at hp'
      have : p = '\n' := by injection hp'
      exact hnl (this ▸ List.mem_cons_self p pr)

theorem prefix_of_append_newline {pat a b : List Char} (hnl : '\n' ∉ pat)
    (h : pat <+: a ++ '\n' :: b) : pat <+: a := by
  by_cases hlen : pat.length ≤ a.length
  · have h' := List.prefix_iff_eq_take.mp h
    rw [List.take_append_of_le_length hlen] at h'
    exact List.prefix_iff_eq_take.mpr h'
  · exfalso
    push_neg at hlen
    have h' := List.prefix_iff_eq_take.mp h
    rw [List.take_append_eq_append_take] at h'
    have h2 : 0 < pat.length - a.length := by omega
    obtain ⟨m, hm⟩ : ∃ m, pat.length - a.length = m + 1 :=
      ⟨pat.length - a.length - 1, by omega⟩
    apply hnl
    rw [h', hm, List.take_succ_cons]
    exact List.mem_append_right _ (List.mem_cons_self _ _)

theorem countOcc_append_newline {pat : List Char} (hne : pat ≠ []) (hnl : '\n' ∉ pat) :
    ∀ a b, countOcc pat (a ++ '\n' :: b) = countOcc pat a + countOcc pat b := by
  intro a
  induction a with
  | nil =>
    intro b
    simp [countOcc, not_isPrefixOf_newline_cons hne hnl b]
  | cons c a ih =>
    intro b
    simp only [List.cons_append, countOcc, ih, List.append_eq]
    have hpre : pat.isPrefixOf (c :: (a ++ '\n' :: b)) = pat.isPrefixOf (c :: a) := by
      cases hp : pat.isPrefixOf (c :: a) with
      | false =>
        cases hq : pat.isPrefixOf (c :: (a ++ '\n' :: b)) with
        | false => rfl
        | true =>
          exfalso
          have hq' := List.isPrefixOf_iff_prefix.mp hq
          have hq'' : pat <+: (c :: a) ++ '\n' :: b := by simpa using hq'
          have := List.isPrefixOf_iff_prefix.mpr (prefix_of_append_newline hnl hq'')
          rw [hp] at this
          exact Bool.false_ne_true this
      | true =>
        have hp' := List.isPrefixOf_iff_prefix.mp hp
        apply List.isPrefixOf_iff_prefix.mpr
        have := hp'.trans (List.prefix_append (c :: a) ('\n' :: b))
        simpa using this
    simp only [hpre]
    omega

theorem countOcc_append_singleton_newline {pat : List Char} (hne : pat ≠ [])
    (hnl : '\n' ∉ pat) (a : List Char) :
    countOcc pat (a ++ ['\n']) = countOcc pat a := by
  have h := countOcc_append_newline hne hnl a []
  simp only [countOcc] at h
  omega

theorem stripAll_of_countOcc_zero {kw s : List Char} (h : countOcc kw s = 0) :
    stripAll kw s = s := by
  induction s with
  | nil => rfl
  | cons c rest ih =>
    rw [stripAll_cons]
    simp only [countOcc] at h
    cases hp : kw.isPrefixOf (c :: rest) with
    | true => rw [hp] at h; simp at h
    | false =>
      rw [hp] at h
      simp only [Bool.false_eq_true, if_false] at h ⊢
      rw [ih (by omega)]

theorem stripAll_kw_append {kw : List Char} (hk : kw ≠ []) (r : List Char) :
    stripAll kw (kw ++ r) = stripAll kw (dropToEol r) := by
  cases kw with
  | nil => exact absurd rfl hk
  | cons k kr =>
    rw [List.cons_append, stripAll_cons]
    have hpre : (k :: kr).isPrefixOf (k :: (kr ++ r)) = true := by
      apply List.isPrefixOf_iff_prefix.mpr
      have h : (k :: kr) <+: (k :: kr) ++ r := List.prefix_append _ _
      simp only [List.cons_append] at h
      exact h
    rw [hpre]
    simp only [if_true, List.length_cons, Nat.add_sub_cancel, List.drop_left]

/-! ### Structure of the combined document -/

theorem foldl_append_blocks (f : DiagramConfig → List Char) :
    ∀ (l : List DiagramConfig) (acc : List Char),
      List.foldl (fun a config => a ++ f config) acc l = acc ++ (l.map f).flatten := by
  intro l
  induction l with
  | nil => intro acc; simp
  | cons config l ih =>
    intro acc
    simp only [List.foldl_cons, List.map_cons, List.flatten_cons, ih, List.append_assoc]

theorem createCombinedUML_eq (configs : List DiagramConfig) (selectedDiagrams : List String)
    (umlContents : String → Option String) :
    createCombinedUML configs selectedDiagrams umlContents =
      combinedHeader
        ++ ((configs.filter (fun config => selectedDiagrams.contains config.id)).map
              (diagramBlock umlContents)).flatten
        ++ "@enduml".data := by
  unfold createCombinedUML
  rw [foldl_append_blocks]

theorem diagramBlock_shape (umlContents : String → Option String) (config : DiagramConfig) :
    diagramBlock umlContents config = []
      ∨ ∃ b', diagramBlock umlContents config = b' ++ ['\n'] := by
  unfold diagramBlock
  cases umlContents config.id with
  | none => exact Or.inl rfl
  | some content =>
    by_cases h1 : content = ""
    · left
      simp [h1]
    · by_cases h2 : cleanContent content.data = []
      · left
        simp [h1, h2]
      · right
        refine ⟨domainHeaderLine config.displayName
          ++ '\n' :: (cleanContent content.data ++ ['\n']), ?_⟩
        simp [h1, h2]

theorem countOcc_join_append {pat : List Char} (hne : pat ≠ []) (hnl : '\n' ∉ pat) :
    ∀ (blocks : List (List Char)) (tail : List Char),
      (∀ b ∈ blocks, b = [] ∨ ∃ b', b = b' ++ ['\n']) →
      countOcc pat (blocks.flatten ++ tail)
        = (blocks.map (countOcc pat)).sum + countOcc pat tail := by
  intro blocks
  induction blocks with
  | nil => intro tail _; simp
  | cons b bs ih =>
    intro tail hb
    rcases hb b (List.mem_cons_self b bs) with hbe | ⟨b', hb'⟩
    · subst hbe
      simp only [List.flatten_cons, List.nil_append, List.map_cons, List.sum_cons, countOcc]
      rw [ih tail (fun x hx => hb x (List.mem_cons_of_mem _ hx))]
      simp [countOcc]
    · subst hb'
      simp only [List.flatten_cons, List.map_cons, List.sum_cons, List.append_assoc,
        List.singleton_append, List.cons_append, List.nil_append]
      rw [countOcc_append_newline hne hnl b' (bs.flatten ++ tail),
        ih tail (fun x hx => hb x (List.mem_cons_of_mem _ hx)),
        countOcc_append_singleton_newline hne hnl b']
      omega

theorem countOcc_singleton_newline {pat : List Char} (hne : pat ≠ []) (hnl : '\n' ∉ pat) :
    countOcc pat ['\n'] = 0 := by
  simp [countOcc, not_isPrefixOf_newline_cons hne hnl]

theorem countOcc_diagramBlock {pat : List Char} (hne : pat ≠ []) (hnl : '\n' ∉ pat)
    (umlContents : String → Option String) (config : DiagramConfig)
    (hhdr : countOcc pat (domainHeaderLine config.displayName) = 0) :
    countOcc pat (diagramBlock umlContents config) = blockCleanCount pat umlContents config := by
  unfold diagramBlock blockCleanCount
  cases umlContents config.id with
  | none => rfl
  | some content =>
    by_cases h1 : content = ""
    · simp [h1, countOcc]
    · simp only [h1, if_false]
      by_cases h2 : cleanContent content.data = []
      · simp [h2, countOcc]
      · simp only [h2, if_false]
        rw [countOcc_append_newline hne hnl, hhdr]
        have : cleanContent content.data ++ ['\n', '\n']
            = cleanContent content.data ++ '\n' :: ['\n'] := rfl
        rw [this, countOcc_append_newline hne hnl,
          countOcc_singleton_newline hne hnl]
        omega

theorem combinedHeader_eq : combinedHeader = chInit ++ ['\n'] := by decide

theorem countOcc_createCombinedUML {pat : List Char} (hne : pat ≠ []) (hnl : '\n' ∉ pat)
    (configs : List DiagramConfig) (selectedDiagrams : List String)
    (umlContents : String → Option String)
    (hhdr : ∀ config ∈ configs, countOcc pat (domainHeaderLine config.displayName) = 0) :
    countOcc pat (createCombinedUML configs selectedDiagrams umlContents)
      = countOcc pat combinedHeader
        + ((configs.filter (fun config => selectedDiagrams.contains config.id)).map
            (blockCleanCount pat umlContents)).sum
        + countOcc pat "@enduml".data := by
  rw [createCombinedUML_eq, combinedHeader_eq, List.append_assoc, List.append_assoc,
    List.singleton_append, countOcc_append_newline hne hnl,
    countOcc_append_singleton_newline hne hnl]
  have hshape : ∀ b ∈ (configs.filter
        (fun config => selectedDiagrams.contains config.id)).map
          (diagramBlock umlContents), b = [] ∨ ∃ b', b = b' ++ ['\n'] := by
    intro b hb
    obtain ⟨config, _, rfl⟩ := List.mem_map.mp hb
    exact diagramBlock_shape umlContents config
  rw [countOcc_join_append hne hnl _ _ hshape, List.map_map]
  have hmaps : ((configs.filter (fun config => selectedDiagrams.contains config.id)).map
        (countOcc pat ∘ diagramBlock umlContents))
      = ((configs.filter (fun config => selectedDiagrams.contains config.id)).map
        (blockCleanCount pat umlContents)) := by
    apply List.map_congr_left
    intro config hconfig
    exact countOcc_diagramBlock hne hnl umlContents config
      (hhdr config (List.mem_of_mem_filter hconfig))
  rw [hmaps]
  omega

theorem combinedHeader_starts (configs : List DiagramConfig) (selectedDiagrams : List String)
    (umlContents : String → Option String) :
    combinedHeader <+: createCombinedUML configs selectedDiagrams umlContents := by
  rw [createCombinedUML_eq, List.append_assoc]
  exact List.prefix_append _ _

theorem enduml_suffix (configs : List DiagramConfig) (selectedDiagrams : List String)
    (umlContents : String → Option String) :
    "@enduml".data <:+ createCombinedUML configs selectedDiagrams umlContents := by
  rw [createCombinedUML_eq]
  exact ⟨combinedHeader
    ++ ((configs.filter (fun config => selectedDiagrams.contains config.id)).map
          (diagramBlock umlContents)).flatten, by simp⟩

theorem blockCleanCount_zero_of_clean {pat : List Char} {umlContents : String → Option String}
    {config : DiagramConfig}
    (h : ∀ content, umlContents config.id = some content →
      countOcc pat (cleanContent content.data) = 0) :
    blockCleanCount pat umlContents config = 0 := by
  unfold blockCleanCount
  cases hc : umlContents config.id with
  | none => rfl
  | some content =>
    by_cases h1 : content = ""
    · simp [h1]
    · simp [h1, h content hc]

theorem markersClean_startuml {stored : Option String} (h : markersClean stored = true) :
    ∀ content, stored = some content → countOcc "@startuml".data (cleanContent content.data) = 0 := by
  intro content hc
  subst hc
  unfold markersClean at h
  simp only [Bool.and_eq_true, beq_iff_eq] at h
  exact h.1

theorem markersClean_enduml {stored : Option String} (h : markersClean stored = true) :
    ∀ content, stored = some content → countOcc "@enduml".data (cleanContent content.data) = 0 := by
  intro content hc
  subst hc
  unfold markersClean at h
  simp only [Bool.and_eq_true, beq_iff_eq] at h
  exact h.2

theorem layoutClean_count {stored : Option String} (h : layoutClean stored = true) :
    ∀ content, stored = some content →
      countOcc "!define LAYOUT".data (cleanContent content.data) = 0 := by
  intro content hc
  subst hc
  unfold layoutClean at h
  simp only [beq_iff_eq] at h
  exact h

theorem sum_blockCleanCount_zero {pat : List Char} {umlContents : String → Option String}
    {configs : List DiagramConfig} (selectedDiagrams : List String)
    (h : ∀ config ∈ configs, ∀ content, umlContents config.id = some content →
      countOcc pat (cleanContent content.data) = 0) :
    ((configs.filter (fun config => selectedDiagrams.contains config.id)).map
        (blockCleanCount pat umlContents)).sum = 0 := by
  apply List.sum_eq_zero
  intro x hx
  obtain ⟨config, hconfig, rfl⟩ := List.mem_map.mp hx
  exact blockCleanCount_zero_of_clean (h config (List.mem_of_mem_filter hconfig))

theorem contains_filter_self (selected : List String) (id : String) :
    (selected.filter (fun s => !(s == id))).contains id = false := by
  simp [List.mem_filter]

theorem contains_filter_ne {x id : String} (selected : List String) (hx : x ≠ id) :
    (selected.filter (fun s => !(s == id))).contains x = selected.contains x := by
  simp [List.mem_filter, hx]

theorem diagramBlock_empty_of_emptyContribution {umlContents : String → Option String}
    {config : DiagramConfig} (h : emptyContribution (umlContents config.id) = true) :
    diagramBlock umlContents config = [] := by
  unfold diagramBlock
  unfold emptyContribution at h
  cases hc : umlContents config.id with
  | none => rfl
  | some content =>
    rw [hc] at h
    simp only [beq_iff_eq] at h
    by_cases h1 : content = ""
    · simp [h1]
    · simp [h1, h]

theorem flatten_filter_erase_empty {umlContents : String → Option String} {id : String}
    (h : emptyContribution (umlContents id) = true) (selectedDiagrams : List String) :
    ∀ configs : List DiagramConfig,
      ((configs.filter (fun config => selectedDiagrams.contains config.id)).map
          (diagramBlock umlContents)).flatten
        = ((configs.filter (fun config =>
              (selectedDiagrams.filter (fun s => !(s == id))).contains config.id)).map
            (diagramBlock umlContents)).flatten := by
  intro configs
  induction configs with
  | nil => rfl
  | cons config rest ih =>
    rw [List.filter_cons, List.filter_cons]
    by_cases hid : config.id = id
    · have hb : diagramBlock umlContents config = [] :=
        diagramBlock_empty_of_emptyContribution (by rw [hid]; exact h)
      rw [hid, contains_filter_self]
      cases hp : selectedDiagrams.contains id
      · simp only [Bool.false_eq_true, if_false, ih]
      · simp only [if_true, Bool.false_eq_true, if_false, List.map_cons, List.flatten_cons,
          hb, List.nil_append, ih]
    · rw [contains_filter_ne selectedDiagrams hid]
      cases hp : selectedDiagrams.contains config.id
      · simp only [Bool.false_eq_true, if_false, ih]
      · simp only [if_true, List.map_cons, List.flatten_cons, ih]

/-! ### The claims -/

/-- C1 (corrected), counterexample: the claim asserts that for selections of
size ≥ 2 the combined document contains exactly one `@startuml` marker no
matter how malformed the stored bodies are.  It is false: the single-pass
regex stripping can splice a new `@startuml` occurrence together out of the
pieces left by a removal, and that occurrence survives into the combined
body.  Here the stored body `"@start@startuml\numl keep\n"` cleans to
`"@startuml keep"`, and the combined document for a selection of size 2
contains two `@startuml` occurrences. -/
theorem C1_counterexample :
    countOcc "@startuml".data
        (createCombinedUML diagramConfigs ["business_support", "channels"] exC1cex) = 2 := by
  decide

/-- C1 (corrected), amended claim: for every selection and arbitrary stored
bodies, the combined document starts with the single opening marker line and
ends with the closing marker; the fixed wrapper contributes exactly one
marker of each kind, and whenever every stored document's cleaned body is
free of marker occurrences (in particular, whenever stripping did not splice
new markers together), the combined document contains exactly one
`@startuml` and exactly one `@enduml` occurrence. -/
theorem C1_single_markers (selectedDiagrams : List String)
    (umlContents : String → Option String)
    (hclean : ∀ config ∈ diagramConfigs, markersClean (umlContents config.id) = true) :
    countOcc "@startuml".data
        (createCombinedUML diagramConfigs selectedDiagrams umlContents) = 1
      ∧ countOcc "@enduml".data
          (createCombinedUML diagramConfigs selectedDiagrams umlContents) = 1
      ∧ "@startuml Combined BIAN Diagrams\n".data
          <+: createCombinedUML diagramConfigs selectedDiagrams umlContents
      ∧ "@enduml".data <:+ createCombinedUML diagramConfigs selectedDiagrams umlContents := by
  refine ⟨?_, ?_, ?_, enduml_suffix _ _ _⟩
  · rw [countOcc_createCombinedUML (by decide) (by decide) diagramConfigs selectedDiagrams
      umlContents (by decide)]
    rw [sum_blockCleanCount_zero selectedDiagrams
      (fun config hconfig => markersClean_startuml (hclean config hconfig))]
    decide
  · rw [countOcc_createCombinedUML (by decide) (by decide) diagramConfigs selectedDiagrams
      umlContents (by decide)]
    rw [sum_blockCleanCount_zero selectedDiagrams
      (fun config hconfig => markersClean_enduml (hclean config hconfig))]
    decide
  · exact List.IsPrefix.trans (by decide) (combinedHeader_starts _ _ _)

/-- C1 witness: on ordinary well-formed bodies the hypothesis holds and the
combined document has exactly one marker of each kind. -/
theorem C1_single_markers_witness :
    (∀ config ∈ diagramConfigs, markersClean (exC1wit config.id) = true)
      ∧ countOcc "@startuml".data
          (createCombinedUML diagramConfigs ["business_support", "channels"] exC1wit) = 1
      ∧ countOcc "@enduml".data
          (createCombinedUML diagramConfigs ["business_support", "channels"] exC1wit) = 1 :=
  ⟨by decide,
    (C1_single_markers ["business_support", "channels"] exC1wit (by decide)).1,
    (C1_single_markers ["business_support", "channels"] exC1wit (by decide)).2.1⟩

/-- C2 (corrected), counterexample: the claim asserts that the per-document
comment headers appear in the caller's selection order.  It is false: with
the selection built in the order `channels`, `business_support`, the
Business Support header still precedes the Channels header, because
`createCombinedUML` filters the fixed catalogue rather than iterating over
the selection. -/
theorem C2_counterexample :
    occursBefore (domainHeaderLine "Business Support") (domainHeaderLine "Channels")
      (createCombinedUML diagramConfigs ["channels", "business_support"] exC2cex) = true := by
  decide

/-- C2 (corrected), amended claim: the per-document contributions (header
plus cleaned body) appear in the fixed catalogue order of `diagramConfigs`
restricted to the selection, not in the order in which identifiers were
added to the selection. -/
theorem C2_catalogue_order (selectedDiagrams : List String)
    (umlContents : String → Option String) :
    createCombinedUML diagramConfigs selectedDiagrams umlContents
      = combinedHeader
        ++ ((diagramConfigs.filter (fun config => selectedDiagrams.contains config.id)).map
              (diagramBlock umlContents)).flatten
        ++ "@enduml".data :=
  createCombinedUML_eq diagramConfigs selectedDiagrams umlContents

/-- C3 (corrected), counterexample: the claim asserts whole-line,
case-tolerant matching and that keywords in the middle of a content line are
not stripped.  Both parts are false: the mid-line `title` inside
`"Subtitle"` is stripped through the end of its line, and the upper-case
`"@STARTUML"` line is not stripped at all. -/
theorem C3_counterexample :
    cleanContent "Foo Subtitle\nA -> B\n".data = "Foo SubA -> B".data
      ∧ cleanContent "@STARTUML\nX\n@enduml\n".data = "@STARTUML\nX".data := by
  constructor
  · decide
  · decide

/-- C3 (corrected), amended claim: each of the four keywords is matched
case-sensitively at any position in a line (not only as a whole line); each
match removes the keyword together with the remainder of its line and the
following line break, in a single left-to-right pass, and the text before a
mid-line match survives; a document in which a keyword does not occur passes
through that stripping stage unchanged (absence is not an error). -/
theorem C3_stripping :
    (∀ kw s : List Char, countOcc kw s = 0 → stripAll kw s = s)
      ∧ (∀ kw r : List Char, kw ≠ [] → stripAll kw (kw ++ r) = stripAll kw (dropToEol r))
      ∧ (∀ (kw : List Char) (c : Char) (rest : List Char),
          kw.isPrefixOf (c :: rest) = false → stripAll kw (c :: rest) = c :: stripAll kw rest)
      ∧ ∀ content : List Char,
          cleanContent content
            = trimChars (stripAll "!define LAYOUT".data (stripAll "title".data
                (stripAll "@enduml".data (stripAll "@startuml".data content)))) := by
  refine ⟨fun kw s h => stripAll_of_countOcc_zero h,
    fun kw r hk => stripAll_kw_append hk r, ?_, fun content => rfl⟩
  intro kw c rest h
  rw [stripAll_cons, h]
  simp

/-- C3 witness: a string without the keyword passes through unchanged. -/
theorem C3_stripping_witness :
    stripAll "title".data "no markers at all".data = "no markers at all".data :=
  C3_stripping.1 "title".data "no markers at all".data (by decide)

/-- C4 (confirmed): for a singleton selection whose identifier is present in
the store, the document text handed to the renderer is the stored body,
unchanged. -/
theorem C4_single_selection (umlContents : String → Option String)
    (diagramId : String) (body : String) (h : umlContents diagramId = some body) :
    visualizeSelectedDiagrams diagramConfigs [diagramId] umlContents = some body.data := by
  simp [visualizeSelectedDiagrams, h]

/-- C4 witness: the spec's concrete scenario for `business_support`. -/
theorem C4_single_selection_witness :
    exC4store "business_support" = some "@startuml\ntitle X\nA -> B\n@enduml"
      ∧ visualizeSelectedDiagrams diagramConfigs ["business_support"] exC4store
          = some "@startuml\ntitle X\nA -> B\n@enduml".data :=
  ⟨by decide,
    C4_single_selection exC4store "business_support" "@startuml\ntitle X\nA -> B\n@enduml"
      (by decide)⟩

/-- C5 (confirmed): a selected document that is absent, empty, or whose body
cleans to the empty string contributes neither header nor body: the combined
document is identical to the one produced with that identifier removed from
the selection, so the wrapper markers and the other documents' contributions
are unaffected. -/
theorem C5_empty_contribution (configs : List DiagramConfig) (selectedDiagrams : List String)
    (umlContents : String → Option String) (id : String)
    (h : emptyContribution (umlContents id) = true) :
    createCombinedUML configs selectedDiagrams umlContents
      = createCombinedUML configs (selectedDiagrams.filter (fun s => !(s == id)))
          umlContents := by
  rw [createCombinedUML_eq, createCombinedUML_eq,
    flatten_filter_erase_empty h selectedDiagrams configs]

/-- C5 witness: `business_support`'s body cleans to empty, and the combined
document equals the one for the selection without it. -/
theorem C5_empty_contribution_witness :
    emptyContribution (exC5wit "business_support") = true
      ∧ createCombinedUML diagramConfigs ["business_support", "channels"] exC5wit
          = createCombinedUML diagramConfigs
              (["business_support", "channels"].filter (fun s => !(s == "business_support")))
              exC5wit :=
  ⟨by decide,
    C5_empty_contribution diagramConfigs ["business_support", "channels"] exC5wit
      "business_support" (by decide)⟩

/-- C6 (confirmed): after `loadAllUMLContents` over a catalogue with unique
ids, every catalogue identifier maps to a stored document whose value is
determined solely by that entry's own fetch outcome: the fetched text on
success, and the synthesized placeholder (carrying the entry's label and
failure reason, see `loadedContent`) on an HTTP or network failure; in
particular no identifier is missing and one entry's failure never affects a
sibling's stored value. -/
theorem C6_loadAll_total (configs : List DiagramConfig) (fetch : String → FetchResult)
    (hnodup : (configs.map (fun config => config.id)).Nodup) :
    ∀ config ∈ configs,
      List.lookup config.id (loadAllUMLContents configs fetch)
        = some (loadedContent config (fetch config.filename)) := by
  induction configs with
  | nil => intro config h; cases h
  | cons first rest ih =>
    intro config hconfig
    rcases List.mem_cons.mp hconfig with rfl | hmem
    · simp [loadAllUMLContents, List.lookup]
    · have hne : config.id ≠ first.id := by
        intro he
        have hm : first.id ∈ rest.map (fun c => c.id) := he ▸ List.mem_map_of_mem _ hmem
        rw [List.map_cons, List.nodup_cons] at hnodup
        exact hnodup.1 hm
      have hrest := ih (by rw [List.map_cons, List.nodup_cons] at hnodup; exact hnodup.2)
        config hmem
      have hbeq : (config.id == first.id) = false := by simp [hne]
      simp only [loadAllUMLContents, List.map_cons, List.lookup, hbeq]
      exact hrest

/-- C6 witness: with a fetch oracle failing only for `bian_channels.puml`,
the `channels` id maps to the placeholder document naming the label and the
failed file, and a sibling id maps to its real fetched content. -/
theorem C6_loadAll_total_witness :
    List.lookup "channels" (loadAllUMLContents diagramConfigs exC6fetch)
        = some "@startuml\ntitle Error Loading Channels\nnote \"Could not load UML file: bian_channels.puml\" as N1\n@enduml"
      ∧ List.lookup "business_support" (loadAllUMLContents diagramConfigs exC6fetch)
        = some "content of bian_business_support.puml" :=
  ⟨(C6_loadAll_total diagramConfigs exC6fetch (by decide) channelsConfig
      (by decide)).trans (by decide),
    (C6_loadAll_total diagramConfigs exC6fetch (by decide) businessSupportConfig
      (by decide)).trans (by decide)⟩

/-- C7 (confirmed): one invocation of `renderUMLDiagram` makes exactly one
external call and no retry (the outcome depends only on the first response);
a failing call produces a failure carrying the server's own `error` message
when a non-empty one was supplied and otherwise the generic message tagged
with the status; and a success outcome can only arise from an ok response,
so no failure is swallowed and no fallback image is returned as success. -/
theorem C7_render_contract (server : Nat → RendererResponse) :
    (renderUMLDiagram server).2 = 1
      ∧ (∀ server' : Nat → RendererResponse, server' 0 = server 0 →
          renderUMLDiagram server' = renderUMLDiagram server)
      ∧ ((server 0).ok = false →
          (renderUMLDiagram server).1 = RenderOutcome.failure (renderErrorMessage (server 0)))
      ∧ (∀ msg, (server 0).ok = false → (server 0).errorField = some msg → msg ≠ "" →
          (renderUMLDiagram server).1 = RenderOutcome.failure msg)
      ∧ ((server 0).ok = false → (server 0).errorField = none →
          (renderUMLDiagram server).1
            = RenderOutcome.failure ("Server error: " ++ toString (server 0).status))
      ∧ (∀ payload, (renderUMLDiagram server).1 = RenderOutcome.success payload →
          (server 0).ok = true ∧ payload = (server 0).payload) := by
  refine ⟨rfl, ?_, ?_, ?_, ?_, ?_⟩
  · intro server' h
    unfold renderUMLDiagram renderErrorMessage
    rw [h]
  · intro h
    simp [renderUMLDiagram, h]
  · intro msg h hmsg hne
    simp [renderUMLDiagram, renderErrorMessage, h, hmsg, hne]
  · intro h hnone
    simp [renderUMLDiagram, renderErrorMessage, h, hnone]
  · intro payload h
    by_cases hok : (server 0).ok
    · refine ⟨hok, ?_⟩
      simp only [renderUMLDiagram, hok, if_true] at h
      cases h
      rfl
    · simp only [Bool.not_eq_true] at hok
      simp [renderUMLDiagram, hok] at h

/-- C7 witness: a stub server failing with a diagnostic produces a failure
carrying exactly that message, after exactly one call. -/
theorem C7_render_contract_witness :
    (renderUMLDiagram exC7server).1 = RenderOutcome.failure "PlantUML failed"
      ∧ (renderUMLDiagram exC7server).2 = 1 :=
  ⟨(C7_render_contract exC7server).2.2.2.1 "PlantUML failed" rfl rfl (by decide),
    (C7_render_contract exC7server).1⟩

/-- C8 (confirmed; the format validation lives in the Flask server `app.py`,
which is not part of the repository snapshot, so `renderWithFormat` is
modelled from the spec): a format outside {png, svg} is rejected with a
failure before any external call — the stub server's invocation count stays
zero. -/
theorem C8_unsupported_format (format : String) (server : Nat → RendererResponse)
    (hpng : format ≠ "png") (hsvg : format ≠ "svg") :
    renderWithFormat format server
      = (RenderOutcome.failure ("Unsupported format: " ++ format), 0) := by
  unfold renderWithFormat
  rw [if_neg]
  rintro (h | h)
  · exact hpng h
  · exact hsvg h

/-- C8 witness: requesting `pdf` fails immediately with zero external
calls. -/
theorem C8_unsupported_format_witness :
    renderWithFormat "pdf" exC8server = (RenderOutcome.failure "Unsupported format: pdf", 0) :=
  (C8_unsupported_format "pdf" exC8server (by decide) (by decide)).trans (by decide)

/-- C9 (confirmed): the combined document depends on the selection only
through membership: two selections containing the same identifiers — in any
insertion orders — produce identical combined documents (contributions are
emitted in the fixed catalogue order of `diagramConfigs`). -/
theorem C9_selection_set_semantics (selected selected' : List String)
    (umlContents : String → Option String)
    (h : ∀ config ∈ diagramConfigs,
      selected.contains config.id = selected'.contains config.id) :
    createCombinedUML diagramConfigs selected umlContents
      = createCombinedUML diagramConfigs selected' umlContents := by
  rw [createCombinedUML_eq, createCombinedUML_eq, List.filter_congr h]

/-- C9 witness: the two insertion orders of the same two ids produce the
same combined document. -/
theorem C9_selection_set_semantics_witness :
    createCombinedUML diagramConfigs ["business_support", "channels"] exC9wit
      = createCombinedUML diagramConfigs ["channels", "business_support"] exC9wit :=
  C9_selection_set_semantics ["business_support", "channels"]
    ["channels", "business_support"] exC9wit (by decide)

/-- C10 (corrected), counterexample: the claim asserts that every
`!define LAYOUT` occurrence is stripped from contributing bodies and that
the combined document contains the layout line exactly once.  It is false:
the single-pass stripping can splice a new `!define LAYOUT` occurrence (here
even the full layout line) out of the pieces left by a removal, so the
cleaned body retains one occurrence and the combined document contains the
layout line twice. -/
theorem C10_counterexample :
    countOcc "!define LAYOUT".data
        (cleanContent "!defi!define LAYOUT x\nne LAYOUT top to bottom direction\nkeep\n".data)
        = 1
      ∧ countOcc "!define LAYOUT top to bottom direction".data
          (createCombinedUML diagramConfigs ["business_support", "channels"] exC10cex) = 2 := by
  constructor
  · decide
  · decide

/-- C10 (corrected), amended claim: combination strips, in a single
left-to-right pass, each `!define LAYOUT` occurrence together with the rest
of its line from every contributing body; the fixed preamble (which emits
the line `!define LAYOUT top to bottom direction` once, before any
per-document content) is a prefix of the combined document; and whenever
every stored document's cleaned body retains no `!define LAYOUT` occurrence,
the combined document contains exactly one. -/
theorem C10_layout_line (selectedDiagrams : List String)
    (umlContents : String → Option String)
    (hclean : ∀ config ∈ diagramConfigs, layoutClean (umlContents config.id) = true) :
    countOcc "!define LAYOUT".data
        (createCombinedUML diagramConfigs selectedDiagrams umlContents) = 1
      ∧ combinedHeader <+: createCombinedUML diagramConfigs selectedDiagrams umlContents := by
  refine ⟨?_, combinedHeader_starts _ _ _⟩
  rw [countOcc_createCombinedUML (by decide) (by decide) diagramConfigs selectedDiagrams
    umlContents (by decide)]
  rw [sum_blockCleanCount_zero selectedDiagrams
    (fun config hconfig => layoutClean_count (hclean config hconfig))]
  decide

/-- C10 witness: with bodies free of layout defines, the combined document
contains the layout line exactly once. -/
theorem C10_layout_line_witness :
    (∀ config ∈ diagramConfigs, layoutClean (exC10wit config.id) = true)
      ∧ countOcc "!define LAYOUT".data
          (createCombinedUML diagramConfigs ["business_support", "channels"] exC10wit) = 1 :=
  ⟨by decide,
    (C10_layout_line ["business_support", "channels"] exC10wit (by decide)).1⟩

end BianUML
